import Mathlib

/-!
Verification of the persistence/query layer of the music-tracks backend
(`src/utils/db.ts`), shallowly embedded in Lean 4.

Modelling conventions:
* The filesystem is explicit state (`FS`): the tracks directory is an
  association list from file name to file content, the uploads directory a
  list of file names, the genres file an optional content.
* A file whose bytes fail `JSON.parse` is modelled as content `none`.
* Spontaneous I/O failures (anything `fs.*` can throw beyond a missing file)
  are modelled by an oracle `IOErr` saying which primitive operation on which
  file throws; `fun _ => false` is the error-free world.
* JavaScript code that can throw is embedded as `Except IOError _`
  (the inner `try` body); a surrounding `try/catch` becomes a `match` on that
  `Except`.  Functions whose bodies catch every exception therefore have plain
  (non-`Except`) return types.
* ISO-8601 timestamp strings produced by `new Date().toISOString()` are
  modelled by the underlying millisecond counts (`Nat`); their string order
  and numeric order agree for the fixed-width format the code produces.
* `String.prototype.toLowerCase` / `includes` are modelled on the character
  lists (ASCII case folding), and the stable `Array.prototype.sort` by a
  stable insertion sort on lists, which agrees with any stable sort for the
  total, transitive comparators the code uses.
-/

/-- ASCII case folding of one character (model of JS `toLowerCase`). -/
def lowerChar (c : Char) : Char :=
  if 65 ≤ c.toNat ∧ c.toNat ≤ 90 then Char.ofNat (c.toNat + 32) else c

/-- Model of `s.toLowerCase()`. -/
def toLowerStr (s : String) : String :=
  ⟨s.data.map lowerChar⟩

/-- Whether `pat` occurs as a contiguous sublist of `s`. -/
def listContains (pat s : List Char) : Bool :=
  pat.isPrefixOf s ||
    match s with
    | [] => false
    | _ :: rest => listContains pat rest

/-- Model of JS `s.includes(pat)`. -/
def includesStr (s pat : String) : Bool :=
  listContains pat.data s.data

/-- Model of JS `s.endsWith(suffix)`. -/
def endsWithStr (s suffix : String) : Bool :=
  suffix.data.isSuffixOf s.data

/-- The `Track` entity of `src/types.ts`; optional fields are `Option`,
timestamps are the underlying millisecond counts. -/
structure Track where
  id : String
  title : String
  artist : String
  album : Option String
  genres : List String
  slug : String
  coverImage : Option String
  audioFile : Option String
  createdAt : Nat
  updatedAt : Nat
deriving DecidableEq

/-- Model of `Omit<Track, 'id' | 'createdAt' | 'updatedAt'>`: the draft accepted by
`createTrack`. -/
structure TrackDraft where
  title : String
  artist : String
  album : Option String
  genres : List String
  slug : String
  coverImage : Option String
  audioFile : Option String
deriving DecidableEq

/-- Model of `Partial<Track>`: outer `none` = key absent from the object; for fields
that are optional in `Track`, an inner `none` = key present with value
`undefined` (which the spread still copies). -/
structure TrackPatch where
  id : Option String := none
  title : Option String := none
  artist : Option String := none
  album : Option (Option String) := none
  genres : Option (List String) := none
  slug : Option String := none
  coverImage : Option (Option String) := none
  audioFile : Option (Option String) := none
  createdAt : Option Nat := none
deriving DecidableEq

/-- Sortable fields of `QueryParams.sort`. -/
inductive SortField
  | title
  | artist
  | album
  | createdAt
deriving DecidableEq

/-- Sort directions of `QueryParams.order`. -/
inductive SortOrder
  | asc
  | desc
deriving DecidableEq

/-- Query parameters of `getTracks` (`QueryParams` of `src/types.ts`). -/
structure QueryParams where
  page : Option Nat := none
  limit : Option Nat := none
  sort : Option SortField := none
  order : Option SortOrder := none
  search : Option String := none
  genre : Option String := none
  artist : Option String := none
deriving DecidableEq

/-- Result shape of `getTracks`. -/
structure GetTracksResult where
  tracks : List Track
  total : Nat
deriving DecidableEq

/-- Result shape of `deleteMultipleTracks`. -/
structure BatchDeleteResponse where
  success : List String
  failed : List String
deriving DecidableEq

/-- Content of one file of the tracks directory: `none` models bytes on which
`JSON.parse` throws, `some t` a well-formed serialized record. -/
abbrev FileContent := Option Track

/-- The filesystem state the db layer reads and writes. -/
structure FS where
  /-- tracks directory: file name ↦ content, in directory-listing order. -/
  tracks : List (String × FileContent)
  /-- uploads directory: the names of the asset files present. -/
  uploads : List String
  /-- genres file: `none` = absent/unreadable, `some none` = unparsable,
  `some (some gs)` = a JSON array of strings. -/
  genresFile : Option (Option (List String))
deriving DecidableEq

/-- Failure oracle: which primitive filesystem call throws (beyond the
deterministic `ENOENT` of a missing file, which the state itself decides). -/
structure IOErr where
  readdirFail : Bool := false
  readFail : String → Bool := fun _ => false
  writeFail : String → Bool := fun _ => false
  unlinkTrackFail : String → Bool := fun _ => false
  unlinkUploadFail : String → Bool := fun _ => false
  genresReadFail : Bool := false

/-- The error-free oracle. -/
def noErr : IOErr := {}

/-- The one exception our embedding distinguishes. -/
inductive IOError
  | ioFailure
deriving DecidableEq

/-- Read a file of the tracks directory (`none` = no such file). -/
def assocGet : List (String × FileContent) → String → Option FileContent
  | [], _ => none
  | (m, c) :: rest, n => if m = n then some c else assocGet rest n

/-- Overwrite-or-create a file of the tracks directory (model of
`fs.writeFile`): an existing entry keeps its position, a new one is appended. -/
def assocSet : List (String × FileContent) → String → FileContent →
    List (String × FileContent)
  | [], n, c => [(n, c)]
  | (m, d) :: rest, n, c =>
    if m = n then (n, c) :: rest else (m, d) :: assocSet rest n c

/-- Remove a file of the tracks directory (model of `fs.unlink`). -/
def assocErase : List (String × FileContent) → String →
    List (String × FileContent)
  | [], _ => []
  | (m, d) :: rest, n =>
    if m = n then assocErase rest n else (m, d) :: assocErase rest n

/-- File name under which a track with a given id is stored. -/
def trackFile (id : String) : String := id ++ ".json"

/-- Stable insertion of `a` into `l`: `a` goes right before the first element
`b` with `le a b`. -/
def insertLe (le : α → α → Bool) (a : α) : List α → List α
  | [] => [a]
  | b :: l => if le a b then a :: b :: l else b :: insertLe le a l

/-- Stable sort by the non-strict comparator `le`; models the (stable) JS
`Array.prototype.sort` with comparator `c` via `le a b := c(a,b) <= 0`,
with which it agrees whenever `c` is a total preorder, as all comparators of
`getTracks` are. -/
def sortByLe (le : α → α → Bool) : List α → List α
  | [] => []
  | a :: l => insertLe le a (sortByLe le l)

/-- Sort-key extraction `a[sortField] || ''` of `getTracks`, compared with
`localeCompare` (modelled as code-point order); a missing `album` compares as
`''`.  For `createdAt` the code compares the ISO strings, whose order is the
numeric order of our `Nat` model. -/
def fieldCmp (f : SortField) (a b : Track) : Ordering :=
  match f with
  | .title => compare a.title b.title
  | .artist => compare a.artist b.artist
  | .album => compare (a.album.getD "") (b.album.getD "")
  | .createdAt => compare a.createdAt b.createdAt

/-- Comparator actually passed to `sort` by `getTracks`: ascending or
descending `fieldCmp` when `params.sort` is provided (with
`params.order || 'asc'`). -/
def sortComparator (f : SortField) (ord : SortOrder) (a b : Track) : Bool :=
  match ord with
  | .asc => !(fieldCmp f a b == .gt)
  | .desc => !(fieldCmp f b a == .gt)

/-- Comparator of the default branch of `getTracks`:
`(a, b) => new Date(b.createdAt).getTime() - new Date(a.createdAt).getTime()`,
i.e. `le a b` iff `b.createdAt ≤ a.createdAt`. -/
def defaultComparator (a b : Track) : Bool :=
  b.createdAt ≤ a.createdAt

/-- Sorting stage of `getTracks` (`db.ts` lines 113-133). -/
def sortTracks (p : QueryParams) (tracks : List Track) : List Track :=
  match p.sort with
  | some f => sortByLe (sortComparator f (p.order.getD .asc)) tracks
  | none => sortByLe defaultComparator tracks

/-- First filter pass of `getTracks` (`db.ts` lines 95-102), guarded by JS
truthiness of `params.search` (an empty string disables it); an absent or
empty `album` is falsy and never matches the search term. -/
def searchFilter (p : QueryParams) (tracks : List Track) : List Track :=
  match p.search with
  | some s =>
    if s = "" then tracks
    else
      let searchLower := toLowerStr s
      tracks.filter fun track =>
        includesStr (toLowerStr track.title) searchLower ||
        includesStr (toLowerStr track.artist) searchLower ||
        (match track.album with
         | some alb => !(alb = "") && includesStr (toLowerStr alb) searchLower
         | none => false)
  | none => tracks

/-- Second filter pass of `getTracks` (`db.ts` lines 104-106): exact
membership of `params.genre` in the track's genres, when supplied. -/
def genreFilter (p : QueryParams) (tracks : List Track) : List Track :=
  match p.genre with
  | some g =>
    if g = "" then tracks
    else tracks.filter fun track => track.genres.contains g
  | none => tracks

/-- Third filter pass of `getTracks` (`db.ts` lines 108-111): substring match
of `params.artist` against the artist field only, when supplied. -/
def artistFilter (p : QueryParams) (tracks : List Track) : List Track :=
  match p.artist with
  | some a =>
    if a = "" then tracks
    else
      let artistLower := toLowerStr a
      tracks.filter fun track =>
        includesStr (toLowerStr track.artist) artistLower
  | none => tracks

/-- Filtering stage of `getTracks` (`db.ts` lines 94-111): the three filter
passes in the order the code runs them. -/
def applyFilters (p : QueryParams) (tracks : List Track) : List Track :=
  artistFilter p (genreFilter p (searchFilter p tracks))

/-- Effective page: `params.page || 1` (0 is falsy). -/
def pageOf (p : QueryParams) : Nat :=
  match p.page with
  | some n => if n = 0 then 1 else n
  | none => 1

/-- Effective limit: `params.limit || 10` (0 is falsy). -/
def limitOf (p : QueryParams) : Nat :=
  match p.limit with
  | some n => if n = 0 then 10 else n
  | none => 10

/-- Body of the `for` loop of `getTracks` (`db.ts` lines 87-92): read every
`.json` file of the listing in order; a read failure or unparsable content
throws out of the whole loop. -/
def readTracksLoop (e : IOErr) :
    List (String × FileContent) → Except IOError (List Track)
  | [] => .ok []
  | (name, c) :: rest =>
    if endsWithStr name ".json" then
      if e.readFail name then .error .ioFailure
      else
        match c with
        | none => .error .ioFailure
        | some t => (readTracksLoop e rest).map fun ts => t :: ts
    else readTracksLoop e rest

/-- Body of the `try` block of `getTracks` (`db.ts` lines 82-146). -/
def getTracksE (e : IOErr) (fs : FS) (p : QueryParams) :
    Except IOError GetTracksResult :=
  if e.readdirFail then .error .ioFailure
  else
    (readTracksLoop e fs.tracks).map fun loaded =>
      let filtered := applyFilters p loaded
      let sorted := sortTracks p filtered
      let total := sorted.length
      let start := (pageOf p - 1) * limitOf p
      { tracks := (sorted.drop start).take (limitOf p), total := total }

/-- Model of `getTracks`: the `try/catch` around `getTracksE` degrades every
failure to `{ tracks: [], total: 0 }`. -/
def getTracks (e : IOErr) (fs : FS) (p : QueryParams) : GetTracksResult :=
  match getTracksE e fs p with
  | .ok r => r
  | .error _ => { tracks := [], total := 0 }

/-- Body of the `try` block of `getTrackBySlug` (`db.ts` lines 159-173):
scan the listing, return the first record whose `slug` matches. -/
def getTrackBySlugE (e : IOErr) (slug : String) :
    List (String × FileContent) → Except IOError (Option Track)
  | [] => .ok none
  | (name, c) :: rest =>
    if endsWithStr name ".json" then
      if e.readFail name then .error .ioFailure
      else
        match c with
        | none => .error .ioFailure
        | some t =>
          if t.slug = slug then .ok (some t) else getTrackBySlugE e slug rest
    else getTrackBySlugE e slug rest

/-- Model of `getTrackBySlug`: the directory listing comes first inside the
same `try`, and any failure degrades to `null`. -/
def getTrackBySlug (e : IOErr) (fs : FS) (slug : String) : Option Track :=
  if e.readdirFail then none
  else
    match getTrackBySlugE e slug fs.tracks with
    | .ok r => r
    | .error _ => none

/-- Body of the `try` block of `getTrackById` (`db.ts` lines 186-189):
read `<id>.json` and parse it; a missing file, a read failure and unparsable
content all throw. -/
def getTrackByIdE (e : IOErr) (fs : FS) (id : String) : Except IOError Track :=
  if e.readFail (trackFile id) then .error .ioFailure
  else
    match assocGet fs.tracks (trackFile id) with
    | none => .error .ioFailure
    | some none => .error .ioFailure
    | some (some t) => .ok t

/-- Model of `getTrackById`: any failure degrades to `null`. -/
def getTrackById (e : IOErr) (fs : FS) (id : String) : Option Track :=
  match getTrackByIdE e fs id with
  | .ok t => some t
  | .error _ => none

/-- Model of `getGenres` (`db.ts` lines 66-74): read and parse the genres
file, degrading to `[]` on any failure. -/
def getGenres (e : IOErr) (fs : FS) : List String :=
  if e.genresReadFail then []
  else
    match fs.genresFile with
    | none => []
    | some none => []
    | some (some gs) => gs

/-- Model of `createTrack` (`db.ts` lines 200-219): id and both timestamps
come from one clock reading `now`; the write failure is NOT caught, so the
result is an `Except`. -/
def createTrack (e : IOErr) (fs : FS) (now : Nat) (draft : TrackDraft) :
    Except IOError (Track × FS) :=
  let id := toString now
  let newTrack : Track :=
    { id := id, title := draft.title, artist := draft.artist,
      album := draft.album, genres := draft.genres, slug := draft.slug,
      coverImage := draft.coverImage, audioFile := draft.audioFile,
      createdAt := now, updatedAt := now }
  if e.writeFail (trackFile id) then .error .ioFailure
  else .ok (newTrack, { fs with tracks := assocSet fs.tracks (trackFile id) (some newTrack) })

/-- The spread `{ ...track, ...updates, updatedAt: now }` of `updateTrack`:
every key present in `updates` overrides, then `updatedAt` is refreshed. -/
def applyPatch (track : Track) (updates : TrackPatch) (now : Nat) : Track :=
  { id := updates.id.getD track.id,
    title := updates.title.getD track.title,
    artist := updates.artist.getD track.artist,
    album := updates.album.getD track.album,
    genres := updates.genres.getD track.genres,
    slug := updates.slug.getD track.slug,
    coverImage := updates.coverImage.getD track.coverImage,
    audioFile := updates.audioFile.getD track.audioFile,
    createdAt := updates.createdAt.getD track.createdAt,
    updatedAt := now }

/-- Model of `updateTrack` (`db.ts` lines 227-254): merge and persist; a
missing record and a caught write failure both yield `null`.  Returns the
result and the final filesystem state. -/
def updateTrack (e : IOErr) (fs : FS) (now : Nat) (id : String)
    (updates : TrackPatch) : Option Track × FS :=
  match getTrackById e fs id with
  | none => (none, fs)
  | some track =>
    let updatedTrack := applyPatch track updates now
    if e.writeFail (trackFile id) then (none, fs)
    else (some updatedTrack,
      { fs with tracks := assocSet fs.tracks (trackFile id) (some updatedTrack) })

/-- Model of `deleteTrack` (`db.ts` lines 261-286): remove the record file,
then best-effort remove the asset (its own failure is caught and ignored).
A missing record or a caught record-unlink failure yields `false`. -/
def deleteTrack (e : IOErr) (fs : FS) (id : String) : Bool × FS :=
  match getTrackById e fs id with
  | none => (false, fs)
  | some track =>
    if e.unlinkTrackFail (trackFile id) then (false, fs)
    else
      let fs1 : FS := { fs with tracks := assocErase fs.tracks (trackFile id) }
      match track.audioFile with
      | some a =>
        if a = "" then (true, fs1)
        else if e.unlinkUploadFail a || !(fs1.uploads.contains a) then (true, fs1)
        else (true, { fs1 with uploads := fs1.uploads.filter fun u => !(u = a) })
      | none => (true, fs1)

/-- Model of `deleteMultipleTracks` (`db.ts` lines 293-310): sequential
single deletes, partitioning the input ids in order. -/
def deleteMultipleTracks (e : IOErr) (fs : FS) :
    List String → BatchDeleteResponse × FS
  | [] => ({ success := [], failed := [] }, fs)
  | id :: rest =>
    let r1 := deleteTrack e fs id
    let r2 := deleteMultipleTracks e r1.2 rest
    (if r1.1 then { success := id :: r2.1.success, failed := r2.1.failed }
     else { success := r2.1.success, failed := id :: r2.1.failed }, r2.2)

/-- Model of `deleteAudioFile` (`db.ts` lines 338-356): a missing record or a
falsy `audioFile` yields `false`; an asset-unlink failure is caught by the
outer handler and yields `false`; otherwise the asset is removed, the record's
`audioFile` key is cleared through `updateTrack` (whose result is ignored),
and the call reports `true`. -/
def deleteAudioFile (e : IOErr) (fs : FS) (now : Nat) (id : String) :
    Bool × FS :=
  match getTrackById e fs id with
  | none => (false, fs)
  | some track =>
    match track.audioFile with
    | none => (false, fs)
    | some a =>
      if a = "" then (false, fs)
      else if e.unlinkUploadFail a || !(fs.uploads.contains a) then (false, fs)
      else
        let fs1 : FS := { fs with uploads := fs.uploads.filter fun u => !(u = a) }
        let r := updateTrack e fs1 now id { audioFile := some none }
        (true, r.2)

/-- Spec-side search filter, transcribed from the spec's words for the
refinement claim about filtering: a case-insensitive substring match that
succeeds when ANY of title, artist or album contains the term. -/
def searchPred (p : QueryParams) (t : Track) : Bool :=
  match p.search with
  | some s =>
    includesStr (toLowerStr t.title) (toLowerStr s) ||
    includesStr (toLowerStr t.artist) (toLowerStr s) ||
    (match t.album with
     | some alb => includesStr (toLowerStr alb) (toLowerStr s)
     | none => false)
  | none => true

/-- Spec-side genre filter: exact membership in the genres sequence. -/
def genrePred (p : QueryParams) (t : Track) : Bool :=
  match p.genre with
  | some g => t.genres.contains g
  | none => true

/-- Spec-side artist filter: case-insensitive substring match on artist. -/
def artistPred (p : QueryParams) (t : Track) : Bool :=
  match p.artist with
  | some a => includesStr (toLowerStr t.artist) (toLowerStr a)
  | none => true

/-- Conjunction of the supplied filters, as the spec words it. -/
def matchesQuery (p : QueryParams) (t : Track) : Bool :=
  searchPred p t && genrePred p t && artistPred p t

/-! ### Sample data used by concrete statements and witnesses -/

/-- Sample record with title `"b"`, the oldest. -/
def trackB : Track := { id := "1", title := "b", artist := "x", album := none, genres := ["Rock"], slug := "b", coverImage := none, audioFile := none, createdAt := 1, updatedAt := 1 }

/-- Sample record with title `"a"`. -/
def trackA : Track := { trackB with id := "2", title := "a", slug := "a", createdAt := 2, updatedAt := 2 }

/-- Sample record with title `"c"`, the newest. -/
def trackC : Track := { trackB with id := "3", title := "c", slug := "c", createdAt := 3, updatedAt := 3 }

/-- Sample store holding the three records above. -/
def sampleFS : FS := { tracks := [("1.json", some trackB), ("2.json", some trackA), ("3.json", some trackC)], uploads := [], genresFile := some (some ["Rock"]) }

/-- An empty storage area. -/
def emptyFS : FS := { tracks := [], uploads := [], genresFile := none }

/-- A storage area holding one unparsable record file. -/
def corruptFS : FS := { tracks := [("x.json", none)], uploads := [], genresFile := some none }

/-- Sample valid draft (all required fields plus slug). -/
def sampleDraft : TrackDraft := { title := "t", artist := "ar", album := none, genres := ["Rock"], slug := "t", coverImage := none, audioFile := none }

/-- The record `createTrack` builds from `sampleDraft` at clock reading 42. -/
def sampleCreated : Track := { id := "42", title := "t", artist := "ar", album := none, genres := ["Rock"], slug := "t", coverImage := none, audioFile := none, createdAt := 42, updatedAt := 42 }

/-- The store after creating `sampleDraft` in `emptyFS` at clock reading 42. -/
def sampleCreatedFS : FS := { tracks := [("42.json", some sampleCreated)], uploads := [], genresFile := none }

/-- Sample record with an attached audio asset. -/
def trackAudio : Track := { trackB with id := "9", slug := "t9", audioFile := some "9.mp3", createdAt := 9, updatedAt := 9 }

/-- Store holding `trackAudio` and its asset file. -/
def audioFS : FS := { tracks := [("9.json", some trackAudio)], uploads := ["9.mp3"], genresFile := none }

/-- An oracle on which every write and every record unlink throws. -/
def failWrites : IOErr := { writeFail := fun _ => true, unlinkTrackFail := fun _ => true }

/-- An oracle on which the directory listing throws. -/
def failReaddir : IOErr := { readdirFail := true }

/-- An oracle on which removing the sample asset file throws. -/
def failUnlinkUpload : IOErr := { unlinkUploadFail := fun _ => true }

/-! ### Helper lemmas about the store and the stable sort -/

theorem trackFile_inj {a b : String} (h : trackFile a = trackFile b) : a = b := by
  have hd := congrArg String.data h
  rw [trackFile, trackFile, String.data_append, String.data_append] at hd
  exact String.ext (List.append_cancel_right hd)

@[simp]
theorem assocGet_assocSet_self (l : List (String × FileContent)) (n : String)
    (c : FileContent) : assocGet (assocSet l n c) n = some c := by
  induction l with
  | nil => simp [assocSet, assocGet]
  | cons p rest ih =>
    by_cases h : p.1 = n
    · simp [assocSet, assocGet, h]
    · simp [assocSet, assocGet, h, ih]

theorem assocGet_assocSet_ne (l : List (String × FileContent)) {m n : String}
    (c : FileContent) (h : m ≠ n) :
    assocGet (assocSet l n c) m = assocGet l m := by
  induction l with
  | nil => simp [assocSet, assocGet, Ne.symm h]
  | cons p rest ih =>
    obtain ⟨k, d⟩ := p
    by_cases hp : k = n
    · subst hp
      simp [assocSet, assocGet, Ne.symm h]
    · simp [assocSet, assocGet, hp, ih]

@[simp]
theorem assocGet_assocErase_self (l : List (String × FileContent)) (n : String) :
    assocGet (assocErase l n) n = none := by
  induction l with
  | nil => simp [assocErase, assocGet]
  | cons p rest ih =>
    obtain ⟨k, d⟩ := p
    by_cases h : k = n
    · simp [assocErase, assocGet, h, ih]
    · simp [assocErase, assocGet, h, ih]

theorem assocGet_assocErase_ne (l : List (String × FileContent)) {m n : String}
    (h : m ≠ n) : assocGet (assocErase l n) m = assocGet l m := by
  induction l with
  | nil => simp [assocErase, assocGet]
  | cons p rest ih =>
    obtain ⟨k, d⟩ := p
    by_cases hp : k = n
    · subst hp
      simp [assocErase, assocGet, Ne.symm h, ih]
    · simp [assocErase, assocGet, hp, ih]

theorem insertLe_perm (le : α → α → Bool) (a : α) (l : List α) :
    (insertLe le a l).Perm (a :: l) := by
  induction l with
  | nil => exact List.Perm.refl _
  | cons b l ih =>
    unfold insertLe
    by_cases h : le a b
    · simp [h]
    · simp only [h, if_false]
      exact (ih.cons b).trans (List.Perm.swap a b l)

theorem sortByLe_perm (le : α → α → Bool) (l : List α) :
    (sortByLe le l).Perm l := by
  induction l with
  | nil => exact List.Perm.refl _
  | cons a l ih =>
    exact (insertLe_perm le a (sortByLe le l)).trans (ih.cons a)

theorem mem_sortByLe {le : α → α → Bool} {l : List α} {x : α} :
    x ∈ sortByLe le l ↔ x ∈ l :=
  (sortByLe_perm le l).mem_iff

theorem length_sortByLe (le : α → α → Bool) (l : List α) :
    (sortByLe le l).length = l.length :=
  (sortByLe_perm le l).length_eq

theorem mem_insertLe {le : α → α → Bool} {l : List α} {a x : α} :
    x ∈ insertLe le a l ↔ x = a ∨ x ∈ l := by
  rw [(insertLe_perm le a l).mem_iff]
  simp

theorem pairwise_insertLe {le : α → α → Bool}
    (htot : ∀ x y, le x y = false → le y x = true)
    (htrans : ∀ x y z, le x y = true → le y z = true → le x z = true)
    (a : α) {l : List α} (h : l.Pairwise fun x y => le x y = true) :
    (insertLe le a l).Pairwise fun x y => le x y = true := by
  induction l with
  | nil => simp [insertLe]
  | cons b l ih =>
    rw [List.pairwise_cons] at h
    obtain ⟨hb, hl⟩ := h
    unfold insertLe
    by_cases hab : le a b
    · simp only [hab, if_true]
      refine List.Pairwise.cons ?_ (List.Pairwise.cons hb hl)
      intro y hy
      rcases List.mem_cons.mp hy with rfl | hy'
      · exact hab
      · exact htrans a b y hab (hb y hy')
    · simp only [hab, if_false]
      refine List.Pairwise.cons ?_ (ih hl)
      intro y hy
      rcases mem_insertLe.mp hy with hya | hy'
      · rw [hya]
        exact htot a b (by simpa using hab)
      · exact hb y hy'

theorem pairwise_sortByLe {le : α → α → Bool}
    (htot : ∀ x y, le x y = false → le y x = true)
    (htrans : ∀ x y z, le x y = true → le y z = true → le x z = true)
    (l : List α) : (sortByLe le l).Pairwise fun x y => le x y = true := by
  induction l with
  | nil => simp [sortByLe]
  | cons a l ih => exact pairwise_insertLe htot htrans a ih

theorem length_sortTracks (p : QueryParams) (l : List Track) :
    (sortTracks p l).length = l.length := by
  unfold sortTracks
  cases p.sort with
  | none => exact length_sortByLe _ l
  | some f => exact length_sortByLe _ l

theorem mem_sortTracks {p : QueryParams} {l : List Track} {t : Track} :
    t ∈ sortTracks p l ↔ t ∈ l := by
  unfold sortTracks
  cases p.sort with
  | none => exact mem_sortByLe
  | some f => exact mem_sortByLe

theorem getTrackById_eq_some {e : IOErr} {fs : FS} {id : String} {t : Track} :
    getTrackById e fs id = some t ↔
      e.readFail (trackFile id) = false ∧
        assocGet fs.tracks (trackFile id) = some (some t) := by
  unfold getTrackById getTrackByIdE
  by_cases hr : e.readFail (trackFile id)
  · simp [hr]
  · simp only [hr, if_false, Bool.false_eq_true, not_false_eq_true, true_and]
    cases hg : assocGet fs.tracks (trackFile id) with
    | none => simp
    | some c =>
      cases c with
      | none => simp
      | some u => simp

/-- C1: for every valid draft, a successful `createTrack` followed by
`getTrackById` on the returned record's id yields a track equal to the record
`createTrack` returned (provided the fresh file's read does not itself
fail). -/
theorem create_then_getById_roundtrip (e : IOErr) (fs : FS) (now : Nat)
    (d : TrackDraft) (t : Track) (fs' : FS)
    (hc : createTrack e fs now d = .ok (t, fs'))
    (hr : e.readFail (trackFile (toString now)) = false) :
    getTrackById e fs' t.id = some t := by
  unfold createTrack at hc
  by_cases hw : e.writeFail (trackFile (toString now))
  · simp [hw] at hc
  · simp only [hw, Bool.false_eq_true, if_false, Except.ok.injEq, Prod.mk.injEq] at hc
    obtain ⟨ht, hfs⟩ := hc
    subst ht
    subst hfs
    rw [getTrackById_eq_some]
    exact ⟨hr, assocGet_assocSet_self _ _ _⟩

/-- C1 witness at a concrete input. -/
theorem create_then_getById_roundtrip_witness :
    getTrackById noErr sampleCreatedFS "42" = some sampleCreated :=
  create_then_getById_roundtrip noErr emptyFS 42 sampleDraft sampleCreated
    sampleCreatedFS (by rfl) (by decide)

/-- C2: when the directory listing and every record read succeed, `getTracks`
filters, then sorts, then paginates: `total` is the filtered pre-pagination
count, the page is the slice `[(page-1)*limit, (page-1)*limit + limit)` of the
filtered sorted sequence, and an out-of-range page yields an empty slice. -/
theorem getTracks_pipeline (e : IOErr) (fs : FS) (p : QueryParams)
    (loaded : List Track)
    (hdir : e.readdirFail = false)
    (hload : readTracksLoop e fs.tracks = .ok loaded) :
    (getTracks e fs p).total = (applyFilters p loaded).length ∧
    (getTracks e fs p).tracks =
      ((sortTracks p (applyFilters p loaded)).drop
        ((pageOf p - 1) * limitOf p)).take (limitOf p) ∧
    ((applyFilters p loaded).length ≤ (pageOf p - 1) * limitOf p →
      (getTracks e fs p).tracks = []) := by
  have hg : getTracks e fs p =
      { tracks := ((sortTracks p (applyFilters p loaded)).drop
          ((pageOf p - 1) * limitOf p)).take (limitOf p),
        total := (sortTracks p (applyFilters p loaded)).length } := by
    unfold getTracks getTracksE
    rw [hdir, hload]
    rfl
  rw [hg]
  refine ⟨length_sortTracks p _, rfl, fun hle => ?_⟩
  have : (sortTracks p (applyFilters p loaded)).length ≤
      (pageOf p - 1) * limitOf p := by
    rw [length_sortTracks]; exact hle
  rw [List.drop_eq_nil_of_le this, List.take_nil]

/-- C2 witness: an out-of-range page on the sample store yields an empty
slice with the filtered total. -/
theorem getTracks_pipeline_witness :
    (getTracks noErr sampleFS { page := some 7 }).tracks = [] :=
  (getTracks_pipeline noErr sampleFS { page := some 7 } [trackB, trackA, trackC]
    (by decide) (by rfl)).2.2 (by decide)

theorem data_ne_nil_of_ne_empty {s : String} (h : s ≠ "") : s.data ≠ [] := by
  intro hd
  exact h (String.ext (by simp [hd]))

theorem includesStr_empty_left {pat : String} (h : pat.data ≠ []) :
    includesStr "" pat = false := by
  unfold includesStr listContains
  cases hd : pat.data with
  | nil => exact absurd hd h
  | cons c cs => simp [List.isPrefixOf]

theorem toLowerStr_empty : toLowerStr "" = "" := rfl

theorem toLowerStr_data_ne {s : String} (h : s ≠ "") :
    (toLowerStr s).data ≠ [] := by
  show (s.data.map lowerChar) ≠ []
  intro hm
  exact data_ne_nil_of_ne_empty h (List.map_eq_nil_iff.mp hm)

theorem mem_searchFilter {p : QueryParams} {l : List Track} {t : Track}
    (hs : p.search ≠ some "") :
    t ∈ searchFilter p l ↔ t ∈ l ∧ searchPred p t = true := by
  unfold searchFilter searchPred
  cases hse : p.search with
  | none => simp
  | some s =>
    have hs' : ¬(s = "") := fun h => hs (by rw [hse, h])
    simp only [hs', if_false, List.mem_filter, and_congr_right_iff]
    intro _
    cases hal : t.album with
    | none => simp
    | some alb =>
      by_cases halb : alb = ""
      · subst halb
        have hinc := includesStr_empty_left (toLowerStr_data_ne hs')
        simp [toLowerStr_empty, hinc]
      · simp [halb]

theorem mem_genreFilter {p : QueryParams} {l : List Track} {t : Track}
    (hg : p.genre ≠ some "") :
    t ∈ genreFilter p l ↔ t ∈ l ∧ genrePred p t = true := by
  unfold genreFilter genrePred
  cases hge : p.genre with
  | none => simp
  | some g =>
    have hg' : ¬(g = "") := fun h => hg (by rw [hge, h])
    simp [hg', List.mem_filter]

theorem mem_artistFilter {p : QueryParams} {l : List Track} {t : Track}
    (ha : p.artist ≠ some "") :
    t ∈ artistFilter p l ↔ t ∈ l ∧ artistPred p t = true := by
  unfold artistFilter artistPred
  cases har : p.artist with
  | none => simp
  | some a =>
    have ha' : ¬(a = "") := fun h => ha (by rw [har, h])
    simp [ha', List.mem_filter]

theorem mem_applyFilters {p : QueryParams} {l : List Track} {t : Track}
    (hs : p.search ≠ some "") (hg : p.genre ≠ some "")
    (ha : p.artist ≠ some "") :
    t ∈ applyFilters p l ↔ t ∈ l ∧ matchesQuery p t = true := by
  unfold applyFilters matchesQuery
  rw [mem_artistFilter ha, mem_genreFilter hg, mem_searchFilter hs]
  simp [Bool.and_eq_true]
  tauto

theorem length_searchFilter_le (p : QueryParams) (l : List Track) :
    (searchFilter p l).length ≤ l.length := by
  unfold searchFilter
  cases p.search with
  | none => exact le_refl _
  | some s =>
    by_cases h : s = ""
    · simp [h]
    · simp only [h, if_false]
      exact List.length_filter_le _ _

theorem length_genreFilter_le (p : QueryParams) (l : List Track) :
    (genreFilter p l).length ≤ l.length := by
  unfold genreFilter
  cases p.genre with
  | none => exact le_refl _
  | some g =>
    by_cases h : g = ""
    · simp [h]
    · simp only [h, if_false]
      exact List.length_filter_le _ _

theorem length_artistFilter_le (p : QueryParams) (l : List Track) :
    (artistFilter p l).length ≤ l.length := by
  unfold artistFilter
  cases p.artist with
  | none => exact le_refl _
  | some a =>
    by_cases h : a = ""
    · simp [h]
    · simp only [h, if_false]
      exact List.length_filter_le _ _

theorem length_applyFilters_le (p : QueryParams) (l : List Track) :
    (applyFilters p l).length ≤ l.length :=
  le_trans (length_artistFilter_le p _)
    (le_trans (length_genreFilter_le p _) (length_searchFilter_le p l))

/-- C3: with every supplied filter a nonempty string and a page large enough
to hold everything, a track appears in the `getTracks` result exactly when it
is stored and satisfies every supplied filter in the spec's sense: `search` a
case-insensitive substring match on title, artist or album, `genre` an exact
membership test, `artist` a case-insensitive substring match on artist. -/
theorem getTracks_filter_membership (e : IOErr) (fs : FS) (p : QueryParams)
    (loaded : List Track) (t : Track) (L : Nat)
    (hdir : e.readdirFail = false)
    (hload : readTracksLoop e fs.tracks = .ok loaded)
    (hpage : p.page = none) (hlimit : p.limit = some L)
    (hL0 : L ≠ 0) (hL : loaded.length ≤ L)
    (hs : p.search ≠ some "") (hg : p.genre ≠ some "")
    (ha : p.artist ≠ some "") :
    t ∈ (getTracks e fs p).tracks ↔ t ∈ loaded ∧ matchesQuery p t = true := by
  obtain ⟨-, htr, -⟩ := getTracks_pipeline e fs p loaded hdir hload
  rw [htr]
  have hstart : (pageOf p - 1) * limitOf p = 0 := by simp [pageOf, hpage]
  have hlim : limitOf p = L := by simp [limitOf, hlimit, hL0]
  have hlen : (sortTracks p (applyFilters p loaded)).length ≤ L := by
    rw [length_sortTracks]
    exact le_trans (length_applyFilters_le p loaded) hL
  rw [hstart, List.drop_zero, hlim, List.take_of_length_le hlen, mem_sortTracks,
    mem_applyFilters hs hg ha]

/-- C3 witness at a concrete input. -/
theorem getTracks_filter_membership_witness :
    trackA ∈ (getTracks noErr sampleFS { limit := some 5, genre := some "Rock" }).tracks ↔
      trackA ∈ [trackB, trackA, trackC] ∧
        matchesQuery { limit := some 5, genre := some "Rock" } trackA = true :=
  getTracks_filter_membership noErr sampleFS
    { limit := some 5, genre := some "Rock" } [trackB, trackA, trackC] trackA 5
    (by decide) (by rfl) (by rfl) (by rfl) (by decide) (by decide) (by decide)
    (by decide) (by decide)

/-- C4: on records titled "b", "a", "c", sorting by title ascending returns
titles ["a", "b", "c"] and descending reverses the sequence; when `sort` is
unset the result is ordered descending by `createdAt`. -/
theorem getTracks_sorting :
    (getTracks noErr sampleFS { sort := some .title, order := some .asc }).tracks.map Track.title = ["a", "b", "c"] ∧
    (getTracks noErr sampleFS { sort := some .title, order := some .desc }).tracks =
      ((getTracks noErr sampleFS { sort := some .title, order := some .asc }).tracks).reverse ∧
    ∀ (e : IOErr) (fs : FS) (p : QueryParams) (loaded : List Track),
      p.sort = none → e.readdirFail = false →
      readTracksLoop e fs.tracks = .ok loaded →
      (getTracks e fs p).tracks.Pairwise fun a b => b.createdAt ≤ a.createdAt := by
  refine ⟨by decide, by decide, ?_⟩
  intro e fs p loaded hsort hdir hload
  obtain ⟨-, htr, -⟩ := getTracks_pipeline e fs p loaded hdir hload
  rw [htr]
  have htot : ∀ x y : Track, defaultComparator x y = false →
      defaultComparator y x = true := by
    intro x y h
    simp only [defaultComparator, decide_eq_false_iff_not, not_le] at h
    simp only [defaultComparator, decide_eq_true_eq]
    exact le_of_lt h
  have htrans : ∀ x y z : Track, defaultComparator x y = true →
      defaultComparator y z = true → defaultComparator x z = true := by
    intro x y z h1 h2
    simp only [defaultComparator, decide_eq_true_eq] at h1 h2 ⊢
    exact le_trans h2 h1
  have hsorted : (sortTracks p (applyFilters p loaded)).Pairwise
      fun a b => defaultComparator a b = true := by
    unfold sortTracks
    rw [hsort]
    exact pairwise_sortByLe htot htrans _
  have hsub := List.Sublist.trans
    (List.take_sublist (limitOf p) _)
    (List.drop_sublist ((pageOf p - 1) * limitOf p)
      (sortTracks p (applyFilters p loaded)))
  refine ((List.Pairwise.sublist hsub hsorted).imp) ?_
  intro a b h
  simpa [defaultComparator] using h

/-- C4 witness: the default listing of the sample store is descending by
creation time. -/
theorem getTracks_sorting_witness :
    (getTracks noErr sampleFS {}).tracks.Pairwise
      fun a b => b.createdAt ≤ a.createdAt :=
  getTracks_sorting.2.2 noErr sampleFS {} [trackB, trackA, trackC]
    (by rfl) (by decide) (by rfl)

theorem readTracksLoop_error_of_bad (e : IOErr)
    (l : List (String × FileContent)) (n : String) (c : FileContent)
    (hmem : (n, c) ∈ l) (hjson : endsWithStr n ".json" = true)
    (hbad : e.readFail n = true ∨ c = none) :
    readTracksLoop e l = .error .ioFailure := by
  induction l with
  | nil => cases hmem
  | cons p rest ih =>
    obtain ⟨m, d⟩ := p
    rcases List.mem_cons.mp hmem with heq | hmem'
    · injection heq with h1 h2
      subst h1
      subst h2
      unfold readTracksLoop
      rcases hbad with hr | hc
      · simp [hjson, hr]
      · subst hc
        by_cases hr : e.readFail n
        · simp [hjson, hr]
        · simp [hjson, hr]
    · unfold readTracksLoop
      by_cases hj : endsWithStr m ".json"
      · by_cases hr : e.readFail m
        · simp [hj, hr]
        · cases d with
          | none => simp [hj, hr]
          | some t => simp [hj, hr, ih hmem', Except.map]
      · simp [hj, ih hmem']

/-- C5: the lookup operations `getTrackById`, `getTrackBySlug`, `getTracks`
and `getGenres` are embedded with plain (non-`Except`) result types — they
never raise — and on every modelled I/O or parse error they return not-found
(`none`) or the empty result instead of propagating it. -/
theorem lookups_degrade (e : IOErr) (fs : FS) (id slug : String)
    (p : QueryParams) :
    (e.readFail (trackFile id) = true → getTrackById e fs id = none) ∧
    (assocGet fs.tracks (trackFile id) = none → getTrackById e fs id = none) ∧
    (assocGet fs.tracks (trackFile id) = some none →
      getTrackById e fs id = none) ∧
    (e.readdirFail = true → getTracks e fs p = { tracks := [], total := 0 }) ∧
    (∀ n c, (n, c) ∈ fs.tracks → endsWithStr n ".json" = true →
      e.readFail n = true ∨ c = none →
      getTracks e fs p = { tracks := [], total := 0 }) ∧
    (e.readdirFail = true → getTrackBySlug e fs slug = none) ∧
    (∀ err, getTrackBySlugE e slug fs.tracks = .error err →
      getTrackBySlug e fs slug = none) ∧
    (e.genresReadFail = true → getGenres e fs = []) ∧
    (fs.genresFile = none → getGenres e fs = []) ∧
    (fs.genresFile = some none → getGenres e fs = []) := by
  refine ⟨?_, ?_, ?_, ?_, ?_, ?_, ?_, ?_, ?_, ?_⟩
  · intro h
    unfold getTrackById getTrackByIdE
    simp [h]
  · intro h
    unfold getTrackById getTrackByIdE
    by_cases hr : e.readFail (trackFile id)
    · simp [hr]
    · simp [hr, h]
  · intro h
    unfold getTrackById getTrackByIdE
    by_cases hr : e.readFail (trackFile id)
    · simp [hr]
    · simp [hr, h]
  · intro h
    unfold getTracks getTracksE
    simp [h]
  · intro n c hmem hjson hbad
    unfold getTracks getTracksE
    by_cases hd : e.readdirFail
    · simp [hd]
    · simp [hd, readTracksLoop_error_of_bad e fs.tracks n c hmem hjson hbad, Except.map]
  · intro h
    unfold getTrackBySlug
    simp [h]
  · intro err h
    unfold getTrackBySlug
    by_cases hd : e.readdirFail
    · simp [hd]
    · simp [hd, h]
  · intro h
    unfold getGenres
    simp [h]
  · intro h
    unfold getGenres
    by_cases hg : e.genresReadFail
    · simp [hg]
    · simp [hg, h]
  · intro h
    unfold getGenres
    by_cases hg : e.genresReadFail
    · simp [hg]
    · simp [hg, h]

/-- C5 witness: a failing directory listing degrades `getTracks` to the
empty result. -/
theorem lookups_degrade_witness :
    getTracks failReaddir corruptFS {} = { tracks := [], total := 0 } :=
  (lookups_degrade failReaddir corruptFS "x" "s" {}).2.2.2.1 (by decide)

/-- C6: error propagation is asymmetric between the write paths: a failing
write makes `createTrack` return the error uncaught, while `updateTrack` and
`deleteTrack` absorb their failing write/unlink into `null`/`false`, the same
answers they give for an absent record — their callers cannot tell a storage
error from a missing record. -/
theorem write_error_asymmetry (e : IOErr) (fs : FS) (now : Nat) (id : String)
    (d : TrackDraft) (patch : TrackPatch) :
    (e.writeFail (trackFile (toString now)) = true →
      createTrack e fs now d = .error .ioFailure) ∧
    (e.writeFail (trackFile id) = true →
      updateTrack e fs now id patch = (none, fs)) ∧
    (getTrackById e fs id = none →
      updateTrack e fs now id patch = (none, fs)) ∧
    (e.unlinkTrackFail (trackFile id) = true →
      deleteTrack e fs id = (false, fs)) ∧
    (getTrackById e fs id = none →
      deleteTrack e fs id = (false, fs)) := by
  refine ⟨?_, ?_, ?_, ?_, ?_⟩
  · intro h
    unfold createTrack
    simp [h]
  · intro h
    unfold updateTrack
    cases hg : getTrackById e fs id with
    | none => rfl
    | some track => simp [h]
  · intro h
    unfold updateTrack
    rw [h]
  · intro h
    unfold deleteTrack
    cases hg : getTrackById e fs id with
    | none => rfl
    | some track => simp [h]
  · intro h
    unfold deleteTrack
    rw [h]

/-- C6 witness: on an oracle where every write and record unlink throws,
`createTrack` propagates the error while `updateTrack` and `deleteTrack`
report not-found/false on the sample store. -/
theorem write_error_asymmetry_witness :
    createTrack failWrites sampleFS 7 sampleDraft = .error .ioFailure ∧
    updateTrack failWrites sampleFS 7 "2" {} = (none, sampleFS) ∧
    deleteTrack failWrites sampleFS "2" = (false, sampleFS) := by
  refine ⟨?_, ?_, ?_⟩
  · exact (write_error_asymmetry failWrites sampleFS 7 "2" sampleDraft {}).1 (by decide)
  · exact (write_error_asymmetry failWrites sampleFS 7 "2" sampleDraft {}).2.1 (by decide)
  · exact (write_error_asymmetry failWrites sampleFS 7 "2" sampleDraft {}).2.2.2.1 (by decide)

theorem dmt_cons (e : IOErr) (fs : FS) (id : String) (rest : List String) :
    deleteMultipleTracks e fs (id :: rest) =
      (if (deleteTrack e fs id).1
       then { success :=
                id :: (deleteMultipleTracks e (deleteTrack e fs id).2 rest).1.success,
              failed :=
                (deleteMultipleTracks e (deleteTrack e fs id).2 rest).1.failed }
       else { success :=
                (deleteMultipleTracks e (deleteTrack e fs id).2 rest).1.success,
              failed :=
                id :: (deleteMultipleTracks e (deleteTrack e fs id).2 rest).1.failed },
       (deleteMultipleTracks e (deleteTrack e fs id).2 rest).2) := rfl

theorem deleteTrack_tracks (e : IOErr) (fs : FS) (id : String) :
    ((deleteTrack e fs id).2).tracks = fs.tracks ∨
    ((deleteTrack e fs id).2).tracks = assocErase fs.tracks (trackFile id) := by
  unfold deleteTrack
  cases getTrackById e fs id with
  | none => exact Or.inl rfl
  | some track =>
    by_cases hu : e.unlinkTrackFail (trackFile id)
    · simp [hu]
    · simp only [hu, Bool.false_eq_true, if_false]
      cases track.audioFile with
      | none => exact Or.inr rfl
      | some a =>
        by_cases ha : a = ""
        · simp [ha]
        · simp only [ha, if_false]
          split
          · exact Or.inr rfl
          · exact Or.inr rfl

theorem assocGet_assocErase_none {l : List (String × FileContent)}
    {k n : String} (h : assocGet l n = none) :
    assocGet (assocErase l k) n = none := by
  by_cases hk : n = k
  · subst hk
    exact assocGet_assocErase_self l n
  · rw [assocGet_assocErase_ne l hk]
    exact h

theorem getTrackById_of_absent {e : IOErr} {fs : FS} {id : String}
    (h : assocGet fs.tracks (trackFile id) = none) :
    getTrackById e fs id = none := by
  unfold getTrackById getTrackByIdE
  by_cases hr : e.readFail (trackFile id)
  · simp [hr]
  · simp [hr, h]

theorem deleteTrack_absent_result {e : IOErr} {fs : FS} {id : String}
    (h : assocGet fs.tracks (trackFile id) = none) :
    deleteTrack e fs id = (false, fs) := by
  unfold deleteTrack
  rw [getTrackById_of_absent h]

theorem absent_stays (e : IOErr) (fs : FS) (id other : String)
    (h : assocGet fs.tracks (trackFile id) = none) :
    assocGet ((deleteTrack e fs other).2).tracks (trackFile id) = none := by
  rcases deleteTrack_tracks e fs other with ht | ht
  · rw [ht]
    exact h
  · rw [ht]
    exact assocGet_assocErase_none h

theorem present_preserved (e : IOErr) (fs : FS) (id other : String)
    (hne : other ≠ id) :
    assocGet ((deleteTrack e fs other).2).tracks (trackFile id) =
      assocGet fs.tracks (trackFile id) := by
  rcases deleteTrack_tracks e fs other with ht | ht
  · rw [ht]
  · rw [ht]
    exact assocGet_assocErase_ne _ fun hh => hne (trackFile_inj hh).symm

theorem deleteTrack_present_success {e : IOErr} {fs : FS} {id : String}
    {t : Track} (h : assocGet fs.tracks (trackFile id) = some (some t))
    (hr : e.readFail (trackFile id) = false)
    (hu : e.unlinkTrackFail (trackFile id) = false) :
    (deleteTrack e fs id).1 = true ∧
    assocGet ((deleteTrack e fs id).2).tracks (trackFile id) = none := by
  have hgt : getTrackById e fs id = some t := getTrackById_eq_some.mpr ⟨hr, h⟩
  unfold deleteTrack
  rw [hgt]
  simp only [hu, Bool.false_eq_true, if_false]
  cases t.audioFile with
  | none => simp
  | some a =>
    by_cases ha : a = ""
    · simp [ha]
    · simp only [ha, if_false]
      split
      · simp
      · simp

theorem dmt_length (e : IOErr) (ids : List String) : ∀ fs : FS,
    (deleteMultipleTracks e fs ids).1.success.length +
      (deleteMultipleTracks e fs ids).1.failed.length = ids.length := by
  induction ids with
  | nil => intro fs; rfl
  | cons i rest ih =>
    intro fs
    rw [dmt_cons]
    have := ih (deleteTrack e fs i).2
    cases hb : (deleteTrack e fs i).1
    · simp only [hb, Bool.false_eq_true, if_false, List.length_cons]
      omega
    · simp only [hb, if_true, List.length_cons]
      omega

theorem dmt_count_conserve (e : IOErr) (id : String) (ids : List String) :
    ∀ fs : FS,
    (deleteMultipleTracks e fs ids).1.success.count id +
      (deleteMultipleTracks e fs ids).1.failed.count id = ids.count id := by
  induction ids with
  | nil => intro fs; rfl
  | cons i rest ih =>
    intro fs
    rw [dmt_cons]
    have := ih (deleteTrack e fs i).2
    cases hb : (deleteTrack e fs i).1
    · simp only [hb, Bool.false_eq_true, if_false, List.count_cons]
      omega
    · simp only [hb, if_true, List.count_cons]
      omega

theorem dmt_success_count_absent (e : IOErr) (id : String)
    (ids : List String) : ∀ fs : FS,
    assocGet fs.tracks (trackFile id) = none →
    (deleteMultipleTracks e fs ids).1.success.count id = 0 := by
  induction ids with
  | nil => intro fs _; rfl
  | cons i rest ih =>
    intro fs h
    rw [dmt_cons]
    have h' := absent_stays e fs id i h
    by_cases hei : i = id
    · subst hei
      rw [deleteTrack_absent_result h]
      simpa using ih fs h
    · cases hb : (deleteTrack e fs i).1
      · simp only [hb, Bool.false_eq_true, if_false]
        exact ih _ h'
      · simp only [hb, if_true, List.count_cons]
        rw [ih _ h']
        simp [hei]

theorem dmt_success_count_present (e : IOErr) (id : String)
    (hr : e.readFail (trackFile id) = false)
    (hu : e.unlinkTrackFail (trackFile id) = false)
    (ids : List String) : ∀ (fs : FS) (t : Track),
    assocGet fs.tracks (trackFile id) = some (some t) →
    (deleteMultipleTracks e fs ids).1.success.count id =
      min (ids.count id) 1 := by
  induction ids with
  | nil =>
    intro fs t _
    simp [deleteMultipleTracks]
  | cons i rest ih =>
    intro fs t h
    rw [dmt_cons]
    by_cases hei : i = id
    · subst hei
      obtain ⟨hb, habs⟩ := deleteTrack_present_success h hr hu
      have hzero := dmt_success_count_absent e i rest _ habs
      simp only [hb, if_true, List.count_cons, hzero]
      simp
    · have h' : assocGet ((deleteTrack e fs i).2).tracks (trackFile id) =
          some (some t) := by
        rw [present_preserved e fs id i hei]
        exact h
      cases hb : (deleteTrack e fs i).1
      · simp only [hb, Bool.false_eq_true, if_false, List.count_cons]
        rw [ih _ t h']
        simp [hei]
      · simp only [hb, if_true, List.count_cons]
        rw [ih _ t h']
        simp [hei]

/-- C7: `deleteMultipleTracks` partitions its input: succeeded plus failed
ids always number exactly the input length; and an id occurring twice that
names an existing record (with its own read/unlink not failing) lands once in
the succeeded list and once in the failed list. -/
theorem deleteBatch_partition (e : IOErr) (fs : FS) (ids : List String)
    (id : String) (t : Track) :
    ((deleteMultipleTracks e fs ids).1.success.length +
      (deleteMultipleTracks e fs ids).1.failed.length = ids.length) ∧
    (ids.count id = 2 →
     assocGet fs.tracks (trackFile id) = some (some t) →
     e.readFail (trackFile id) = false →
     e.unlinkTrackFail (trackFile id) = false →
     (deleteMultipleTracks e fs ids).1.success.count id = 1 ∧
     (deleteMultipleTracks e fs ids).1.failed.count id = 1) := by
  refine ⟨dmt_length e ids fs, ?_⟩
  intro h2 hp hr hu
  have hs := dmt_success_count_present e id hr hu ids fs t hp
  have hc := dmt_count_conserve e id ids fs
  rw [h2] at hs hc
  constructor
  · simpa using hs
  · omega

/-- C7 witness: deleting id "2" twice in one batch on the sample store yields
it once in `success` and once in `failed`. -/
theorem deleteBatch_partition_witness :
    (deleteMultipleTracks noErr sampleFS ["2", "2"]).1.success.count "2" = 1 ∧
    (deleteMultipleTracks noErr sampleFS ["2", "2"]).1.failed.count "2" = 1 :=
  (deleteBatch_partition noErr sampleFS ["2", "2"] "2" trackA).2
    (by decide) (by decide) (by decide) (by decide)

/-- C8: deleting a track with an attached asset removes both the record file
and the asset file; `deleteTrack` returns `false` when the record did not
exist and `true` otherwise even when the cascade asset removal fails; and
`deleteAudioFile` on a track with no `audioFile` reports failure and leaves
both the record store and the asset store untouched. -/
theorem asset_lifecycle (e : IOErr) (fs : FS) (id : String) (t : Track)
    (a : String) (now : Nat) :
    (assocGet fs.tracks (trackFile id) = some (some t) →
     t.audioFile = some a → a ≠ "" →
     e.readFail (trackFile id) = false →
     e.unlinkTrackFail (trackFile id) = false →
     e.unlinkUploadFail a = false → a ∈ fs.uploads →
     (deleteTrack e fs id).1 = true ∧
     assocGet ((deleteTrack e fs id).2).tracks (trackFile id) = none ∧
     a ∉ ((deleteTrack e fs id).2).uploads) ∧
    (assocGet fs.tracks (trackFile id) = none →
     deleteTrack e fs id = (false, fs)) ∧
    (assocGet fs.tracks (trackFile id) = some (some t) →
     t.audioFile = some a →
     e.readFail (trackFile id) = false →
     e.unlinkTrackFail (trackFile id) = false →
     e.unlinkUploadFail a = true →
     (deleteTrack e fs id).1 = true) ∧
    (assocGet fs.tracks (trackFile id) = some (some t) →
     t.audioFile = none →
     deleteAudioFile e fs now id = (false, fs)) := by
  refine ⟨?_, fun h => deleteTrack_absent_result h, ?_, ?_⟩
  · intro hp hau ha hr hu hua hmem
    have hgt : getTrackById e fs id = some t := getTrackById_eq_some.mpr ⟨hr, hp⟩
    have hcontains : fs.uploads.contains a = true := by simpa using hmem
    unfold deleteTrack
    simp [hgt, hu, hau, ha, hua, hcontains, hmem, List.mem_filter]
  · intro hp hau hr hu hua
    have hgt : getTrackById e fs id = some t := getTrackById_eq_some.mpr ⟨hr, hp⟩
    unfold deleteTrack
    simp only [hgt, hu, Bool.false_eq_true, if_false, hau, hua, Bool.true_or]
    split
    · rfl
    · split
      · rfl
      · rfl
  · intro hp hau
    unfold deleteAudioFile
    cases hgtc : getTrackById e fs id with
    | none => rfl
    | some track =>
      have htr : track = t := by
        have h2 := (getTrackById_eq_some.mp hgtc).2
        rw [hp] at h2
        injection h2 with h3
        injection h3 with h4
        exact h4.symm
      subst htr
      simp [hau]

/-- C8 witness: deleting the sample track with an attached asset removes the
record and the asset. -/
theorem asset_lifecycle_witness :
    (deleteTrack noErr audioFS "9").1 = true ∧
    assocGet ((deleteTrack noErr audioFS "9").2).tracks (trackFile "9") = none ∧
    "9.mp3" ∉ ((deleteTrack noErr audioFS "9").2).uploads :=
  (asset_lifecycle noErr audioFS "9" trackAudio "9.mp3" 0).1 (by decide)
    (by decide) (by decide) (by decide) (by decide) (by decide) (by decide)

/-- C9 counterexample: `updateTrack` spreads the whole patch over the record,
so a `Partial<Track>` carrying an `id` field rewrites the persisted record's
id: after `updateTrack "2" {id: "evil"}` the record stored under the creation
key `2.json` carries id `"evil"`, not the creation id `"2"`. -/
theorem updateTrack_id_mutates :
    (assocGet ((updateTrack noErr sampleFS 9 "2" { id := some "evil" }).2).tracks
        (trackFile "2")).map (Option.map Track.id) = some (some "evil") ∧
    (assocGet ((updateTrack noErr sampleFS 9 "2" { id := some "evil" }).2).tracks
        (trackFile "2")).map (Option.map Track.id) ≠ some (some "2") := by
  decide

/-- C9 (amended): for every update whose patch does not include an `id`
field, the id stored under the record's creation key is unchanged by
`updateTrack`, and no other key of the store is touched — the creation id
remains the storage filename key. -/
theorem updateTrack_id_immutable (e : IOErr) (fs : FS) (now : Nat)
    (id : String) (updates : TrackPatch) (hid : updates.id = none) :
    (assocGet ((updateTrack e fs now id updates).2).tracks
        (trackFile id)).map (Option.map Track.id) =
      (assocGet fs.tracks (trackFile id)).map (Option.map Track.id) ∧
    ∀ f, f ≠ trackFile id →
      assocGet ((updateTrack e fs now id updates).2).tracks f =
        assocGet fs.tracks f := by
  unfold updateTrack
  cases hgt : getTrackById e fs id with
  | none => exact ⟨rfl, fun f _ => rfl⟩
  | some track =>
    by_cases hw : e.writeFail (trackFile id)
    · simp [hw]
    · simp only [hw, Bool.false_eq_true, if_false]
      obtain ⟨hr, hp⟩ := getTrackById_eq_some.mp hgt
      constructor
      · simp [assocGet_assocSet_self, hp, applyPatch, hid]
      · intro f hf
        exact assocGet_assocSet_ne fs.tracks _ hf

/-- C9 witness for the amended statement at a concrete input. -/
theorem updateTrack_id_immutable_witness :
    (assocGet ((updateTrack noErr sampleFS 9 "2" { title := some "z" }).2).tracks
        (trackFile "2")).map (Option.map Track.id) =
      (assocGet sampleFS.tracks (trackFile "2")).map (Option.map Track.id) :=
  (updateTrack_id_immutable noErr sampleFS 9 "2" { title := some "z" }
    (by rfl)).1

theorem applyFilters_congr {p q : QueryParams} (hs : p.search = q.search)
    (hg : p.genre = q.genre) (ha : p.artist = q.artist) :
    ∀ l, applyFilters p l = applyFilters q l := by
  intro l
  unfold applyFilters searchFilter genreFilter artistFilter
  rw [hs, hg, ha]

theorem sortTracks_congr {p q : QueryParams} (hso : p.sort = q.sort)
    (hor : p.order = q.order) :
    ∀ l, sortTracks p l = sortTracks q l := by
  intro l
  unfold sortTracks
  rw [hso, hor]

theorem getTracks_param_congr (e : IOErr) (fs : FS) {p q : QueryParams}
    (hs : p.search = q.search) (hg : p.genre = q.genre)
    (ha : p.artist = q.artist) (hso : p.sort = q.sort)
    (hor : p.order = q.order) (hpage : pageOf p = pageOf q)
    (hlim : limitOf p = limitOf q) :
    getTracks e fs p = getTracks e fs q := by
  unfold getTracks getTracksE
  simp only [applyFilters_congr hs hg ha, sortTracks_congr hso hor, hpage,
    hlim]

/-- C10: `getTracks` treats `page = 0` and `limit = 0` exactly like absent
parameters (JS `||` defaulting, 0 being falsy): the results equal those of
the defaulted query, and in particular a query with `limit = 0` returns up to
the default 10 tracks, not 0. -/
theorem zero_page_limit_defaults (e : IOErr) (fs : FS) (p : QueryParams) :
    getTracks e fs { p with page := some 0 } =
      getTracks e fs { p with page := none } ∧
    getTracks e fs { p with limit := some 0 } =
      getTracks e fs { p with limit := none } ∧
    (getTracks e fs { p with page := none, limit := some 0 }).tracks.length =
      min (getTracks e fs { p with page := none, limit := some 0 }).total 10 := by
  refine ⟨getTracks_param_congr e fs rfl rfl rfl rfl rfl rfl rfl,
    getTracks_param_congr e fs rfl rfl rfl rfl rfl rfl rfl, ?_⟩
  unfold getTracks
  cases hE : getTracksE e fs { p with page := none, limit := some 0 } with
  | error err => simp
  | ok r =>
    unfold getTracksE at hE
    by_cases hd : e.readdirFail
    · rw [if_pos hd] at hE
      cases hE
    · rw [if_neg hd] at hE
      cases hL : readTracksLoop e fs.tracks with
      | error err2 =>
        rw [hL] at hE
        simp [Except.map] at hE
      | ok loaded =>
        rw [hL] at hE
        simp only [Except.map, Except.ok.injEq] at hE
        subst hE
        simp [pageOf, limitOf, List.length_take, Nat.min_comm]
